import Mathlib

set_option maxRecDepth 2000

/-!
Verification development for the replay-file decoder of
`generals-replay-search` (`src/replays/parser.py`) and the slot-insertion
logic of `src/replays/database.py`.

Byte streams are modelled as `List Nat` (each entry one byte, `< 256`);
Python `str` values are modelled as `List Char`.  Python exceptions are
modelled by the error type `PErr`:
`struct.error` raised by a short `unpack` buffer is `truncatedInput`,
`UnicodeDecodeError` is `invalidEncoding`, the untyped `ValueError`
raised by `int(...)` or by tuple unpacking is `valueError`, `IndexError`
from out-of-range indexing is `indexError`, and each distinct
`ReplayParserException` raise-site gets its own typed constructor
carrying the data interpolated into the exception message.
-/

/-- Game type enumeration, from `class GameType` (parser.py lines 48-51). -/
inductive GameType where
  | GENERALS
  | BFME
  | BFME2
deriving DecidableEq, Repr

/-- Slot type enumeration, from `class ReplaySlotType` (parser.py lines 79-82). -/
inductive ReplaySlotType where
  | EMPTY
  | HUMAN
  | COMPUTER
deriving DecidableEq, Repr

/-- Slot difficulty enumeration, from `class ReplaySlotDifficulty` (parser.py lines 85-88). -/
inductive ReplaySlotDifficulty where
  | EASY
  | MEDIUM
  | HARD
deriving DecidableEq, Repr

/-- Failure outcomes of the decoder.  Each constructor stands for one way
the Python code can raise while parsing, see the module docstring. -/
inductive PErr where
  | truncatedInput
  | invalidEncoding
  | unrecognizedFormat (tag : List Char)
  | unsupportedVariant (g : GameType)
  | invalidSlotType (c : Char)
  | invalidSlotDifficulty (c : Char)
  | unrecognizedMetadataKey (key : List Char)
  | valueError
  | indexError
deriving DecidableEq, Repr

deriving instance DecidableEq for Except

/-- One byte of input. -/
abbrev Byte := Nat

/-- Bytes of an ASCII string literal, for writing concrete byte streams. -/
def strBytes (s : String) : List Byte :=
  s.toList.map Char.toNat

/-- `read_uint16` (parser.py lines 18-19): `struct.unpack("<H", file.read(2))`.
A buffer shorter than 2 bytes makes `struct.unpack` raise `struct.error`,
modelled as `truncatedInput`. -/
def read_uint16 (bs : List Byte) : Except PErr (Nat × List Byte) :=
  match bs with
  | b0 :: b1 :: rest => .ok (b0 + 256 * b1, rest)
  | _ => .error .truncatedInput

/-- `read_uint32` (parser.py lines 22-23): `struct.unpack("<I", file.read(4))`. -/
def read_uint32 (bs : List Byte) : Except PErr (Nat × List Byte) :=
  match bs with
  | b0 :: b1 :: b2 :: b3 :: rest =>
      .ok (b0 + 256 * b1 + 65536 * b2 + 16777216 * b3, rest)
  | _ => .error .truncatedInput

/-- The byte-collecting loop of `read_null_terminated_string`
(parser.py lines 26-31): single-byte reads until a zero byte or
end of input; the terminator is consumed but not collected. -/
def readNullTerminatedBytes : List Byte → List Byte × List Byte
  | [] => ([], [])
  | b :: rest =>
      if b = 0 then ([], rest)
      else
        (b :: (readNullTerminatedBytes rest).1, (readNullTerminatedBytes rest).2)

/-- Is `b` a UTF-8 continuation byte. -/
def utf8ContB (b : Byte) : Prop := 0x80 ≤ b ∧ b ≤ 0xBF

instance (b : Byte) : Decidable (utf8ContB b) := by
  unfold utf8ContB; infer_instance

/-- UTF-8 decoding of a byte list, modelling Python `bytes.decode()`:
`none` corresponds to `UnicodeDecodeError`. -/
def utf8Decode : List Byte → Option (List Char)
  | [] => some []
  | b1 :: rest =>
    if b1 ≤ 0x7F then
      (utf8Decode rest).map (fun cs => Char.ofNat b1 :: cs)
    else if 0xC2 ≤ b1 ∧ b1 ≤ 0xDF then
      match rest with
      | b2 :: rest2 =>
          if utf8ContB b2 then
            (utf8Decode rest2).map
              (fun cs => Char.ofNat ((b1 - 0xC0) * 0x40 + (b2 - 0x80)) :: cs)
          else none
      | [] => none
    else if 0xE0 ≤ b1 ∧ b1 ≤ 0xEF then
      match rest with
      | b2 :: b3 :: rest3 =>
          let lo2 := if b1 = 0xE0 then 0xA0 else 0x80
          let hi2 := if b1 = 0xED then 0x9F else 0xBF
          if (lo2 ≤ b2 ∧ b2 ≤ hi2) ∧ utf8ContB b3 then
            (utf8Decode rest3).map
              (fun cs =>
                Char.ofNat ((b1 - 0xE0) * 0x1000 + (b2 - 0x80) * 0x40 + (b3 - 0x80)) :: cs)
          else none
      | _ => none
    else if 0xF0 ≤ b1 ∧ b1 ≤ 0xF4 then
      match rest with
      | b2 :: b3 :: b4 :: rest4 =>
          let lo2 := if b1 = 0xF0 then 0x90 else 0x80
          let hi2 := if b1 = 0xF4 then 0x8F else 0xBF
          if (lo2 ≤ b2 ∧ b2 ≤ hi2) ∧ utf8ContB b3 ∧ utf8ContB b4 then
            (utf8Decode rest4).map
              (fun cs =>
                Char.ofNat ((b1 - 0xF0) * 0x40000 + (b2 - 0x80) * 0x1000 +
                  (b3 - 0x80) * 0x40 + (b4 - 0x80)) :: cs)
          else none
      | _ => none
    else none

/-- `read_null_terminated_string` (parser.py lines 26-32): collect bytes up
to a zero byte or end of input, then decode them as UTF-8. -/
def read_null_terminated_string (bs : List Byte) : Except PErr (List Char × List Byte) :=
  match utf8Decode (readNullTerminatedBytes bs).1 with
  | some s => .ok (s, (readNullTerminatedBytes bs).2)
  | none => .error .invalidEncoding

/-- The chunk-collecting loop of `read_null_terminated_utf16_string`
(parser.py lines 35-40): two-byte reads until the chunk `00 00` or end of
input.  A final one-byte read (odd stream) is collected as well, exactly as
the Python loop appends whatever `file.read(2)` returned. -/
def readUtf16Chunks : List Byte → List Byte × List Byte
  | [] => ([], [])
  | [b] => ([b], [])
  | b1 :: b2 :: rest =>
      if b1 = 0 ∧ b2 = 0 then ([], rest)
      else
        (b1 :: b2 :: (readUtf16Chunks rest).1, (readUtf16Chunks rest).2)

/-- Pair up bytes little-endian into UTF-16 code units; an odd trailing
byte is a decode error (`none`). -/
def utf16Units : List Byte → Option (List Nat)
  | [] => some []
  | [_] => none
  | b1 :: b2 :: rest => (utf16Units rest).map (fun us => (b1 + 256 * b2) :: us)

/-- Decode UTF-16 code units (surrogate pairs handled, lone surrogates are
errors).  Together with `utf16Units` this models Python
`bytes.decode(encoding="utf_16")` in its little-endian default; byte-order
marks are not interpreted. -/
def utf16DecodeUnits : List Nat → Option (List Char)
  | [] => some []
  | u :: us =>
    if u < 0xD800 ∨ 0xE000 ≤ u then
      (utf16DecodeUnits us).map (fun cs => Char.ofNat u :: cs)
    else if u ≤ 0xDBFF then
      match us with
      | u2 :: us2 =>
          if 0xDC00 ≤ u2 ∧ u2 ≤ 0xDFFF then
            (utf16DecodeUnits us2).map
              (fun cs => Char.ofNat (0x10000 + (u - 0xD800) * 0x400 + (u2 - 0xDC00)) :: cs)
          else none
      | [] => none
    else none

/-- `read_null_terminated_utf16_string` (parser.py lines 35-41). -/
def read_null_terminated_utf16_string (bs : List Byte) :
    Except PErr (List Char × List Byte) :=
  match (utf16Units (readUtf16Chunks bs).1).bind utf16DecodeUnits with
  | some s => .ok (s, (readUtf16Chunks bs).2)
  | none => .error .invalidEncoding

/-- Python `str.split(sep)` on single-character separators: always returns
at least one (possibly empty) piece. -/
def pySplit (sep : Char) : List Char → List (List Char)
  | [] => [[]]
  | c :: rest =>
    if c = sep then [] :: pySplit sep rest
    else
      match pySplit sep rest with
      | [] => [[c]]
      | g :: gs => (c :: g) :: gs

/-- Python `str.split(sep, maxsplit=1)` reduced to what the metadata loop
needs: `none` when the separator does not occur (the two-element unpacking
then raises `ValueError`), otherwise the pieces before and after the first
occurrence. -/
def splitMax1 (sep : Char) : List Char → Option (List Char × List Char)
  | [] => none
  | c :: rest =>
    if c = sep then some ([], rest)
    else (splitMax1 sep rest).map (fun p => (c :: p.1, p.2))

/-- Value of one digit character under `base`, as Python `int(_, base)`
accepts it. -/
def digitVal (base : Nat) (c : Char) : Option Nat :=
  let v :=
    if '0' ≤ c ∧ c ≤ '9' then some (c.toNat - '0'.toNat)
    else if 'a' ≤ c ∧ c ≤ 'z' then some (c.toNat - 'a'.toNat + 10)
    else if 'A' ≤ c ∧ c ≤ 'Z' then some (c.toNat - 'A'.toNat + 10)
    else none
  match v with
  | some d => if d < base then some d else none
  | none => none

/-- Digit run with Python's single-underscore-between-digits rule; `acc`
is the value of the digits already consumed. -/
def pyDigitsAux (base : Nat) (acc : Nat) : List Char → Option Nat
  | [] => some acc
  | c :: rest =>
    if c = '_' then
      match rest with
      | c2 :: rest2 =>
          match digitVal base c2 with
          | some d => pyDigitsAux base (acc * base + d) rest2
          | none => none
      | [] => none
    else
      match digitVal base c with
      | some d => pyDigitsAux base (acc * base + d) rest
      | none => none

/-- Non-empty digit run (must start with a digit, not an underscore). -/
def pyDigits (base : Nat) : List Char → Option Nat
  | [] => none
  | c :: rest =>
    match digitVal base c with
    | some d => pyDigitsAux base d rest
    | none => none

/-- Python whitespace stripped by `int(...)`. -/
def isPyWs (c : Char) : Bool :=
  c = ' ' ∨ c = '\t' ∨ c = '\n' ∨ c = '\r' ∨ c = '\x0b' ∨ c = '\x0c'

/-- Strip leading and trailing whitespace. -/
def pyStrip (s : List Char) : List Char :=
  ((s.dropWhile isPyWs).reverse.dropWhile isPyWs).reverse

/-- Model of Python `int(s)` (base 10): `none` is `ValueError`. -/
def pyInt10 (s : List Char) : Option Int :=
  match pyStrip s with
  | '+' :: r => (pyDigits 10 r).map Int.ofNat
  | '-' :: r => (pyDigits 10 r).map (fun n => -(Int.ofNat n))
  | r => (pyDigits 10 r).map Int.ofNat

/-- Body of a base-16 literal: optional `0x`/`0X` prefix then hex digits. -/
def pyHexBody (s : List Char) : Option Nat :=
  match s with
  | '0' :: c :: r =>
      if c = 'x' ∨ c = 'X' then
        match r with
        | [] => none
        | _ => pyDigitsAux 16 0 r
      else pyDigits 16 s
  | _ => pyDigits 16 s

/-- Model of Python `int(s, base=16)`: `none` is `ValueError`. -/
def pyInt16 (s : List Char) : Option Int :=
  match pyStrip s with
  | '+' :: r => (pyHexBody r).map Int.ofNat
  | '-' :: r => (pyHexBody r).map (fun n => -(Int.ofNat n))
  | r => (pyHexBody r).map Int.ofNat

/-- Lift an optional integer to the decoder's error monad; `none` becomes
the untyped `ValueError`. -/
def intOrValueError (o : Option Int) : Except PErr Int :=
  match o with
  | some n => .ok n
  | none => .error .valueError

/-- Python list/str indexing: out of range raises `IndexError`. -/
def pyItem {α : Type} (l : List α) (i : Nat) : Except PErr α :=
  match l.get? i with
  | some a => .ok a
  | none => .error .indexError

/-- `ReplayTimestamp` (parser.py lines 54-63). -/
structure ReplayTimestamp where
  year : Nat
  month : Nat
  day_of_week : Nat
  day : Nat
  hour : Nat
  minute : Nat
  second : Nat
  millisecond : Nat
deriving DecidableEq, Repr

/-- `ReplayTimestamp.parse` (parser.py lines 65-76): eight `read_uint16`. -/
def ReplayTimestamp.parse (bs : List Byte) : Except PErr (ReplayTimestamp × List Byte) := do
  let (year, bs) ← read_uint16 bs
  let (month, bs) ← read_uint16 bs
  let (day_of_week, bs) ← read_uint16 bs
  let (day, bs) ← read_uint16 bs
  let (hour, bs) ← read_uint16 bs
  let (minute, bs) ← read_uint16 bs
  let (second, bs) ← read_uint16 bs
  let (millisecond, bs) ← read_uint16 bs
  .ok ({ year, month, day_of_week, day, hour, minute, second, millisecond }, bs)

/-- `ReplaySlot` (parser.py lines 91-101), with the dataclass defaults:
the Python code zero-fills fields that a slot variant does not set. -/
structure ReplaySlot where
  slot_type : ReplaySlotType
  human_name : List Char := []
  user_id : Int := 0
  computer_difficulty : Option ReplaySlotDifficulty := none
  color : Int := 0
  faction : Int := 0
  star_position : Int := 0
  team : Int := 0
deriving DecidableEq, Repr

/-- `ReplaySlot._read_slot_type` (parser.py lines 124-135), including the
source's duplicated `C` branch. -/
def ReplaySlot.readSlotType (raw : List Char) : Except PErr ReplaySlotType := do
  let c ← pyItem raw 0
  if c = 'H' then .ok .HUMAN
  else if c = 'C' then .ok .COMPUTER
  else if c = 'C' then .ok .COMPUTER
  else if c = 'X' ∨ c = 'O' then .ok .EMPTY
  else .error (.invalidSlotType c)

/-- `ReplaySlot._read_slot_difficulty` (parser.py lines 137-146).  The source
returns EASY for all three marker characters, and the exception it raises
carries `raw[0]`, not the inspected `raw[1]`. -/
def ReplaySlot.readSlotDifficulty (raw : List Char) : Except PErr ReplaySlotDifficulty := do
  let c ← pyItem raw 1
  if c = 'E' then .ok .EASY
  else if c = 'M' then .ok .EASY
  else if c = 'H' then .ok .EASY
  else do
    let c0 ← pyItem raw 0
    .error (.invalidSlotDifficulty c0)

/-- `ReplaySlot.parse` (parser.py lines 103-122). -/
def ReplaySlot.parse (raw : List Char) : Except PErr ReplaySlot := do
  let slot_type ← ReplaySlot.readSlotType raw
  let slot_details := (pySplit ',' raw).filter (fun p => !p.isEmpty)
  match slot_type with
  | .HUMAN => do
      let d0 ← pyItem slot_details 0
      let human_name := d0.drop 1
      let d1 ← pyItem slot_details 1
      let user_id ← intOrValueError (pyInt16 d1)
      let d4 ← pyItem slot_details 4
      let color ← intOrValueError (pyInt10 d4)
      let d5 ← pyItem slot_details 5
      let faction ← intOrValueError (pyInt10 d5)
      let d6 ← pyItem slot_details 6
      let star_position ← intOrValueError (pyInt10 d6)
      let d7 ← pyItem slot_details 7
      let team ← intOrValueError (pyInt10 d7)
      .ok { slot_type, human_name, user_id, color, faction, star_position, team }
  | .COMPUTER => do
      let computer_difficulty ← ReplaySlot.readSlotDifficulty raw
      let d1 ← pyItem slot_details 1
      let color ← intOrValueError (pyInt10 d1)
      let d2 ← pyItem slot_details 2
      let faction ← intOrValueError (pyInt10 d2)
      let d3 ← pyItem slot_details 3
      let star_position ← intOrValueError (pyInt10 d3)
      let d4 ← pyItem slot_details 4
      let team ← intOrValueError (pyInt10 d4)
      .ok { slot_type, computer_difficulty := some computer_difficulty,
            color, faction, star_position, team }
  | .EMPTY => .ok { slot_type }

/-- `ReplayMetadata` (parser.py lines 149-160) with the dataclass defaults.
The source declares `O : int = 0` but assigns the raw string when the key
appears; `none` stands for the untouched default. -/
structure ReplayMetadata where
  mapfile_unknown_int : Int := 0
  mapfile : List Char := []
  map_crc : Int := 0
  map_size : Int := 0
  SD : Int := 0
  C : Int := 0
  SR : Int := 0
  starting_credits : Int := 0
  O : Option (List Char) := none
  slots : List ReplaySlot := []
deriving DecidableEq, Repr

/-- One iteration of the `for entry in raw_split` loop of
`ReplayMetadata.parse` (parser.py lines 167-199).  A segment without `=`
makes the two-element unpacking raise the untyped `ValueError`. -/
def ReplayMetadata.processEntry (m : ReplayMetadata) (entry : List Char) :
    Except PErr ReplayMetadata :=
  match splitMax1 '=' entry with
  | none => .error .valueError
  | some (key, value) =>
    if key = "US".toList then .ok m
    else if key = "M".toList then
      let int_end := (value.takeWhile (fun c => '0' ≤ c ∧ c ≤ '9')).length
      match pyInt10 (value.take int_end) with
      | some n => .ok { m with mapfile_unknown_int := n, mapfile := value.drop int_end }
      | none => .error .valueError
    else if key = "MC".toList then
      match pyInt16 value with
      | some n => .ok { m with map_crc := n }
      | none => .error .valueError
    else if key = "MS".toList then
      match pyInt10 value with
      | some n => .ok { m with map_size := n }
      | none => .error .valueError
    else if key = "SD".toList then
      match pyInt10 value with
      | some n => .ok { m with SD := n }
      | none => .error .valueError
    else if key = "C".toList then
      match pyInt10 value with
      | some n => .ok { m with C := n }
      | none => .error .valueError
    else if key = "SR".toList then
      match pyInt10 value with
      | some n => .ok { m with SR := n }
      | none => .error .valueError
    else if key = "SC".toList then
      match pyInt10 value with
      | some n => .ok { m with starting_credits := n }
      | none => .error .valueError
    else if key = "O".toList then .ok { m with O := some value }
    else if key = "S".toList then do
      let slots ← (pySplit ':' value).foldlM
        (fun acc piece =>
          if piece.isEmpty then .ok acc
          else do
            let s ← ReplaySlot.parse piece
            .ok (acc ++ [s]))
        m.slots
      .ok { m with slots }
    else .error (.unrecognizedMetadataKey key)

/-- The key-value processing of `ReplayMetadata.parse` (parser.py lines
162-201) applied to an already-read metadata string: split on `;`, drop
empty segments, then run the entry loop. -/
def ReplayMetadata.parseRaw (raw : List Char) : Except PErr ReplayMetadata :=
  ((pySplit ';' raw).filter (fun p => !p.isEmpty)).foldlM ReplayMetadata.processEntry {}

/-- `ReplayMetadata.parse` (parser.py lines 162-201): read the
null-terminated metadata string, then process it. -/
def ReplayMetadata.parse (bs : List Byte) : Except PErr (ReplayMetadata × List Byte) := do
  let (raw, rest) ← read_null_terminated_string bs
  let m ← ReplayMetadata.parseRaw raw
  .ok (m, rest)

/-- The decoded `Replay` record (attributes set by `Replay._parse`,
parser.py lines 210-232).  The two epoch timestamps are kept as the raw
`read_uint32` values; `datetime.datetime.fromtimestamp` only re-renders
that integer in local time (parser.py lines 245-247). -/
structure Replay where
  game_type : GameType
  start_date : Nat
  end_date : Nat
  num_timecodes : Nat
  filename : List Char
  timestamp : ReplayTimestamp
  version : List Char
  build_date : List Char
  version_minor : Nat
  version_major : Nat
  unknown_hash : List Byte
  metadata : ReplayMetadata
  unknown1 : Nat
  unknown2 : Nat
  unknown3 : Nat
  unknown4 : Nat
  game_speed : Nat
deriving DecidableEq, Repr

/-- `Replay._parse_game_type` (parser.py lines 234-243): read 6 bytes and
compare to `GENREP`; on mismatch read 6 further bytes (no rewind) and
compare those to the 8-character markers `BFMEREPL` / `BFME2RPL`. -/
def Replay.parseGameType (bs : List Byte) : Except PErr (GameType × List Byte) :=
  match utf8Decode (bs.take 6) with
  | none => .error .invalidEncoding
  | some tag =>
    if tag = "GENREP".toList then .ok (.GENERALS, bs.drop 6)
    else
      match utf8Decode ((bs.drop 6).take 6) with
      | none => .error .invalidEncoding
      | some tag2 =>
        if tag2 = "BFMEREPL".toList then .ok (.BFME, (bs.drop 6).drop 6)
        else if tag2 = "BFME2RPL".toList then .ok (.BFME2, (bs.drop 6).drop 6)
        else .error (.unrecognizedFormat tag2)

/-- `Replay._parse` (parser.py lines 210-232), field reads in source order.
The returned list is the unconsumed remainder of the stream (the frame /
command data the parser never reads). -/
def Replay.parse (bs0 : List Byte) : Except PErr (Replay × List Byte) := do
  let (game_type, bs1) ← Replay.parseGameType bs0
  if game_type ≠ GameType.GENERALS then
    .error (.unsupportedVariant game_type)
  else do
    let (start_date, bs2) ← read_uint32 bs1
    let (end_date, bs3) ← read_uint32 bs2
    let (num_timecodes, bs4) ← read_uint16 bs3
    let (filename, bs6) ← read_null_terminated_utf16_string (bs4.drop 12)
    let (timestamp, bs7) ← ReplayTimestamp.parse bs6
    let (version, bs8) ← read_null_terminated_utf16_string bs7
    let (build_date, bs9) ← read_null_terminated_utf16_string bs8
    let (version_minor, bs10) ← read_uint16 bs9
    let (version_major, bs11) ← read_uint16 bs10
    let unknown_hash := bs11.take 8
    let (metadata, bs13) ← ReplayMetadata.parse (bs11.drop 8)
    let (unknown1, bs14) ← read_uint16 bs13
    let (unknown2, bs15) ← read_uint32 bs14
    let (unknown3, bs16) ← read_uint32 bs15
    let (unknown4, bs17) ← read_uint32 bs16
    let (game_speed, bs18) ← read_uint32 bs17
    .ok ({ game_type, start_date, end_date, num_timecodes, filename, timestamp,
           version, build_date, version_minor, version_major, unknown_hash,
           metadata, unknown1, unknown2, unknown3, unknown4, game_speed }, bs18)

/-- Value of a `ReplaySlotType` member, as `slot_type.value` in Python. -/
def slotTypeValue : ReplaySlotType → Nat
  | .EMPTY => 0
  | .HUMAN => 1
  | .COMPUTER => 2

/-- Value of a `ReplaySlotDifficulty` member. -/
def difficultyValue : ReplaySlotDifficulty → Nat
  | .EASY => 1
  | .MEDIUM => 2
  | .HARD => 3

/-- One row of the `slots` table as inserted by `ReplayDatabase.add_replay`
(database.py lines 68-81). -/
structure SlotRow where
  replay_id : Int
  slot_type_value : Nat
  human_name : List Char
  user_id : Int
  computer_difficulty_value : Nat
  color : Int
  faction : Int
  star_position : Int
  team : Int
deriving DecidableEq, Repr

/-- The tuple bound to one `INSERT INTO slots` statement
(database.py lines 70-80); a slot without a difficulty stores 0. -/
def mkSlotRow (rid : Int) (s : ReplaySlot) : SlotRow :=
  { replay_id := rid
    slot_type_value := slotTypeValue s.slot_type
    human_name := s.human_name
    user_id := s.user_id
    computer_difficulty_value :=
      match s.computer_difficulty with
      | some d => difficultyValue d
      | none => 0
    color := s.color
    faction := s.faction
    star_position := s.star_position
    team := s.team }

/-- The slot-insertion loop of `ReplayDatabase.add_replay` (database.py
lines 65-81): `if not slot.slot_type.value: continue` skips slots whose
type value is 0, every other slot produces one inserted row, in order. -/
def ReplayDatabase.slotInserts (rid : Int) : List ReplaySlot → List SlotRow
  | [] => []
  | s :: rest =>
      if slotTypeValue s.slot_type = 0 then ReplayDatabase.slotInserts rid rest
      else mkSlotRow rid s :: ReplayDatabase.slotInserts rid rest

/-- Number of bytes consumed from `bs` by the UTF-16 chunk loop
(`read_null_terminated_utf16_string`). -/
def cstr16Len (bs : List Byte) : Nat :=
  bs.length - (readUtf16Chunks bs).2.length

/-- Number of bytes consumed from `bs` by the single-byte string loop
(`read_null_terminated_string`). -/
def cstrLen (bs : List Byte) : Nat :=
  bs.length - (readNullTerminatedBytes bs).2.length

/-- Byte regions of `bs` occupied by the four variable-length
null-terminated string fields of the GENERALS layout (embedded filename,
version string, build string, metadata block), as half-open offset
intervals.  Everything else between offset 6 (end of the variant tag) and
the end of the consumed header consists of the required fixed-size fields:
the 2- and 4-byte integers, the 12-byte reserved region and the 8-byte
hash. -/
def variableRegions (bs : List Byte) : List (Nat × Nat) :=
  let fnEnd := 28 + cstr16Len (bs.drop 28)
  let verStart := fnEnd + 16
  let verEnd := verStart + cstr16Len (bs.drop verStart)
  let bdEnd := verEnd + cstr16Len (bs.drop verEnd)
  let mdStart := bdEnd + 12
  [(28, fnEnd), (verStart, verEnd), (verEnd, bdEnd),
   (mdStart, mdStart + cstrLen (bs.drop mdStart))]

/-- Offset `k` of stream `bs` lies inside one of the required fixed-size
fields of the GENERALS header layout: past the 6-byte variant tag and
outside every variable-length string region. -/
def isFixedFieldOffset (bs : List Byte) (k : Nat) : Prop :=
  6 ≤ k ∧ ∀ p ∈ variableRegions bs, ¬ (p.1 ≤ k ∧ k < p.2)

instance (bs : List Byte) (k : Nat) : Decidable (isFixedFieldOffset bs k) := by
  unfold isFixedFieldOffset; infer_instance

/-- A minimal well-formed GENERALS replay stream: the `GENREP` tag followed
by zero-valued fixed fields, empty strings and an empty metadata block. -/
def demoStream : List Byte :=
  strBytes "GENREP" ++ List.replicate 75 0

/-- The record `Replay.parse` produces on `demoStream`. -/
def demoReplay : Replay :=
  { game_type := .GENERALS, start_date := 0, end_date := 0, num_timecodes := 0,
    filename := [], timestamp := ⟨0, 0, 0, 0, 0, 0, 0, 0⟩, version := [],
    build_date := [], version_minor := 0, version_major := 0,
    unknown_hash := List.replicate 8 0, metadata := {}, unknown1 := 0,
    unknown2 := 0, unknown3 := 0, unknown4 := 0, game_speed := 0 }

/-! ## General lemmas about the error monad and list reads -/

theorem ok_bind {ε α β : Type} (a : α) (f : α → Except ε β) :
    (Except.ok a >>= f) = f a := rfl

theorem error_bind {ε α β : Type} (e : ε) (f : α → Except ε β) :
    ((Except.error e : Except ε α) >>= f) = .error e := rfl

theorem bind_ok_iff {ε α β : Type} {e : Except ε α} {f : α → Except ε β} {b : β} :
    (e >>= f) = .ok b ↔ ∃ a, e = .ok a ∧ f a = .ok b := by
  cases e <;> simp [Bind.bind, Except.bind]

theorem take_drop_comm {α : Type} (m k : Nat) (l : List α) :
    (l.take k).drop m = (l.drop m).take (k - m) := by
  induction m generalizing k l with
  | zero => simp
  | succ m ih =>
    cases l with
    | nil => simp
    | cons a l =>
      cases k with
      | zero => simp
      | succ k => simpa using ih k l

theorem take_cons2 {α : Type} (a b : α) (l : List α) (k : Nat) (hk : 2 ≤ k) :
    (a :: b :: l).take k = a :: b :: l.take (k - 2) := by
  obtain ⟨k', rfl⟩ : ∃ k', k = k' + 2 := ⟨k - 2, by omega⟩
  simp [List.take_succ_cons]

theorem take_cons4 {α : Type} (a b c d : α) (l : List α) (k : Nat) (hk : 4 ≤ k) :
    (a :: b :: c :: d :: l).take k = a :: b :: c :: d :: l.take (k - 4) := by
  obtain ⟨k', rfl⟩ : ∃ k', k = k' + 4 := ⟨k - 4, by omega⟩
  simp [List.take_succ_cons]

theorem read_uint16_cons (b0 b1 : Byte) (l : List Byte) :
    read_uint16 (b0 :: b1 :: l) = .ok (b0 + 256 * b1, l) := rfl

theorem read_uint32_cons (b0 b1 b2 b3 : Byte) (l : List Byte) :
    read_uint32 (b0 :: b1 :: b2 :: b3 :: l) =
      .ok (b0 + 256 * b1 + 65536 * b2 + 16777216 * b3, l) := rfl

theorem read_uint16_short {l : List Byte} (h : l.length < 2) :
    read_uint16 l = .error .truncatedInput := by
  rcases l with _ | ⟨a, _ | ⟨b, l⟩⟩
  · rfl
  · rfl
  · simp only [List.length_cons] at h; omega

theorem read_uint32_short {l : List Byte} (h : l.length < 4) :
    read_uint32 l = .error .truncatedInput := by
  rcases l with _ | ⟨a, _ | ⟨b, _ | ⟨c, _ | ⟨d, l⟩⟩⟩⟩
  · rfl
  · rfl
  · rfl
  · rfl
  · simp only [List.length_cons] at h; omega

theorem read_uint16_ok {l : List Byte} {v : Nat} {r : List Byte}
    (h : read_uint16 l = .ok (v, r)) :
    ∃ b0 b1, l = b0 :: b1 :: r ∧ v = b0 + 256 * b1 := by
  rcases l with _ | ⟨b0, _ | ⟨b1, l⟩⟩
  · simp [read_uint16] at h
  · simp [read_uint16] at h
  · refine ⟨b0, b1, ?_, ?_⟩ <;>
      simp only [read_uint16, Except.ok.injEq, Prod.mk.injEq] at h
    · rw [h.2]
    · exact h.1.symm

theorem read_uint32_ok {l : List Byte} {v : Nat} {r : List Byte}
    (h : read_uint32 l = .ok (v, r)) :
    ∃ b0 b1 b2 b3, l = b0 :: b1 :: b2 :: b3 :: r ∧
      v = b0 + 256 * b1 + 65536 * b2 + 16777216 * b3 := by
  rcases l with _ | ⟨b0, _ | ⟨b1, _ | ⟨b2, _ | ⟨b3, l⟩⟩⟩⟩
  · simp [read_uint32] at h
  · simp [read_uint32] at h
  · simp [read_uint32] at h
  · simp [read_uint32] at h
  · refine ⟨b0, b1, b2, b3, ?_, ?_⟩ <;>
      simp only [read_uint32, Except.ok.injEq, Prod.mk.injEq] at h
    · rw [h.2]
    · exact h.1.symm

/-! ## Consumption and truncation lemmas for the string readers -/

theorem rntb_nil : readNullTerminatedBytes [] = ([], []) := rfl

theorem rntb_zero (rest : List Byte) : readNullTerminatedBytes (0 :: rest) = ([], rest) := rfl

theorem rntb_cons {b : Byte} (rest : List Byte) (hb : b ≠ 0) :
    readNullTerminatedBytes (b :: rest) =
      (b :: (readNullTerminatedBytes rest).1, (readNullTerminatedBytes rest).2) := by
  simp only [readNullTerminatedBytes, if_neg hb]

theorem chunks_nil : readUtf16Chunks [] = ([], []) := rfl

theorem chunks_one (b : Byte) : readUtf16Chunks [b] = ([b], []) := rfl

theorem chunks_term (rest : List Byte) : readUtf16Chunks (0 :: 0 :: rest) = ([], rest) := rfl

theorem chunks_cons {b1 b2 : Byte} (rest : List Byte) (hz : ¬(b1 = 0 ∧ b2 = 0)) :
    readUtf16Chunks (b1 :: b2 :: rest) =
      (b1 :: b2 :: (readUtf16Chunks rest).1, (readUtf16Chunks rest).2) := by
  simp only [readUtf16Chunks, if_neg hz]

theorem cstr_facts (bs : List Byte) :
    (readNullTerminatedBytes bs).2 = bs.drop (cstrLen bs) ∧
    cstrLen bs ≤ bs.length ∧
    ∀ k, cstrLen bs ≤ k →
      readNullTerminatedBytes (bs.take k) =
        ((readNullTerminatedBytes bs).1,
         (readNullTerminatedBytes bs).2.take (k - cstrLen bs)) := by
  induction bs with
  | nil =>
    refine ⟨rfl, Nat.le_refl _, fun k hk => ?_⟩
    simp [rntb_nil, cstrLen]
  | cons b rest ih =>
    obtain ⟨ih1, ih2, ih3⟩ := ih
    by_cases hb : b = 0
    · subst hb
      have hlen : cstrLen (0 :: rest) = 1 := by
        unfold cstrLen
        rw [rntb_zero]
        simp only [List.length_cons]
        omega
      refine ⟨by rw [rntb_zero, hlen, List.drop_succ_cons, List.drop_zero],
        by rw [hlen]; simp only [List.length_cons]; omega, fun k hk => ?_⟩
      rw [hlen] at hk
      obtain ⟨k', rfl⟩ : ∃ k', k = k' + 1 := ⟨k - 1, by omega⟩
      rw [List.take_succ_cons, rntb_zero, rntb_zero, hlen, Nat.add_sub_cancel]
    · have hX : (readNullTerminatedBytes rest).2.length ≤ rest.length := by
        rw [ih1, List.length_drop]; omega
      have hlen : cstrLen (b :: rest) = cstrLen rest + 1 := by
        unfold cstrLen
        rw [rntb_cons rest hb]
        simp only [List.length_cons]
        omega
      refine ⟨?_, ?_, fun k hk => ?_⟩
      · rw [rntb_cons rest hb, hlen, List.drop_succ_cons, ih1]
      · simp only [hlen, List.length_cons]; omega
      · rw [hlen] at hk
        obtain ⟨k', rfl⟩ : ∃ k', k = k' + 1 := ⟨k - 1, by omega⟩
        rw [List.take_succ_cons, rntb_cons (rest.take k') hb, ih3 k' (by omega),
          rntb_cons rest hb, hlen]
        have harith : k' + 1 - (cstrLen rest + 1) = k' - cstrLen rest := by omega
        rw [harith]

theorem chunks_facts (bs : List Byte) :
    (readUtf16Chunks bs).2 = bs.drop (cstr16Len bs) ∧
    cstr16Len bs ≤ bs.length ∧
    ∀ k, cstr16Len bs ≤ k →
      readUtf16Chunks (bs.take k) =
        ((readUtf16Chunks bs).1,
         (readUtf16Chunks bs).2.take (k - cstr16Len bs)) := by
  suffices h : ∀ (n : Nat) (bs : List Byte), bs.length ≤ n →
      (readUtf16Chunks bs).2 = bs.drop (cstr16Len bs) ∧
      cstr16Len bs ≤ bs.length ∧
      ∀ k, cstr16Len bs ≤ k →
        readUtf16Chunks (bs.take k) =
          ((readUtf16Chunks bs).1,
           (readUtf16Chunks bs).2.take (k - cstr16Len bs)) from
    h bs.length bs (Nat.le_refl _)
  intro n
  induction n with
  | zero =>
    intro bs hbs
    have hnil : bs = [] := by
      cases bs with
      | nil => rfl
      | cons a l => simp at hbs
    subst hnil
    exact ⟨rfl, Nat.le_refl _, fun k hk => by simp [chunks_nil, cstr16Len]⟩
  | succ n ih =>
    intro bs hbs
    match bs with
    | [] => exact ⟨rfl, Nat.le_refl _, fun k hk => by simp [chunks_nil, cstr16Len]⟩
    | [b] =>
      have hlen : cstr16Len [b] = 1 := by
        unfold cstr16Len
        rw [chunks_one]
        rfl
      refine ⟨by rw [chunks_one, hlen]; rfl, by rw [hlen]; simp, fun k hk => ?_⟩
      rw [hlen] at hk
      obtain ⟨k', rfl⟩ : ∃ k', k = k' + 1 := ⟨k - 1, by omega⟩
      rw [List.take_succ_cons, List.take_nil, chunks_one]
      simp [hlen]
    | b1 :: b2 :: rest =>
      have hrest : rest.length ≤ n := by
        simp only [List.length_cons] at hbs; omega
      obtain ⟨ih1, ih2, ih3⟩ := ih rest hrest
      by_cases hz : b1 = 0 ∧ b2 = 0
      · obtain ⟨rfl, rfl⟩ := hz
        have hlen : cstr16Len (0 :: 0 :: rest) = 2 := by
          simp only [cstr16Len, chunks_term, List.length_cons]
          omega
        refine ⟨by rw [chunks_term, hlen]; rfl,
          by rw [hlen]; simp only [List.length_cons]; omega, fun k hk => ?_⟩
        rw [hlen] at hk
        obtain ⟨k', rfl⟩ : ∃ k', k = k' + 2 := ⟨k - 2, by omega⟩
        rw [show k' + 2 = (k' + 1) + 1 from rfl, List.take_succ_cons, List.take_succ_cons,
          chunks_term, chunks_term, hlen]
        simp
      · have hX : (readUtf16Chunks rest).2.length ≤ rest.length := by
          rw [ih1, List.length_drop]; omega
        have hlen : cstr16Len (b1 :: b2 :: rest) = cstr16Len rest + 2 := by
          unfold cstr16Len
          rw [chunks_cons rest hz]
          simp only [List.length_cons]
          omega
        refine ⟨?_, ?_, fun k hk => ?_⟩
        · rw [chunks_cons rest hz, hlen,
            show cstr16Len rest + 2 = (cstr16Len rest + 1) + 1 from rfl,
            List.drop_succ_cons, List.drop_succ_cons, ih1]
        · simp only [hlen, List.length_cons]; omega
        · rw [hlen] at hk
          obtain ⟨k', rfl⟩ : ∃ k', k = k' + 2 := ⟨k - 2, by omega⟩
          rw [show k' + 2 = (k' + 1) + 1 from rfl, List.take_succ_cons, List.take_succ_cons,
            chunks_cons (rest.take k') hz, ih3 k' (by omega), chunks_cons rest hz, hlen]
          have harith : k' + 1 + 1 - (cstr16Len rest + 2) = k' - cstr16Len rest := by omega
          rw [harith]

theorem utf16str_facts {bs : List Byte} {s : List Char} {r : List Byte}
    (h : read_null_terminated_utf16_string bs = .ok (s, r)) :
    r = bs.drop (cstr16Len bs) ∧ cstr16Len bs ≤ bs.length ∧
    ∀ k, cstr16Len bs ≤ k →
      read_null_terminated_utf16_string (bs.take k) = .ok (s, r.take (k - cstr16Len bs)) := by
  obtain ⟨hdrop, hle, htake⟩ := chunks_facts bs
  unfold read_null_terminated_utf16_string at h
  cases hdec : (utf16Units (readUtf16Chunks bs).1).bind utf16DecodeUnits with
  | none => rw [hdec] at h; exact absurd h (by simp)
  | some s' =>
    rw [hdec] at h
    have hs : s' = s ∧ (readUtf16Chunks bs).2 = r := by
      simpa using h
    obtain ⟨rfl, hr⟩ := hs
    refine ⟨by rw [← hr, hdrop], hle, fun k hk => ?_⟩
    unfold read_null_terminated_utf16_string
    rw [htake k hk, hr]
    dsimp only
    rw [hdec]

theorem cstrstr_facts {bs : List Byte} {s : List Char} {r : List Byte}
    (h : read_null_terminated_string bs = .ok (s, r)) :
    r = bs.drop (cstrLen bs) ∧ cstrLen bs ≤ bs.length ∧
    ∀ k, cstrLen bs ≤ k →
      read_null_terminated_string (bs.take k) = .ok (s, r.take (k - cstrLen bs)) := by
  obtain ⟨hdrop, hle, htake⟩ := cstr_facts bs
  unfold read_null_terminated_string at h
  cases hdec : utf8Decode (readNullTerminatedBytes bs).1 with
  | none => rw [hdec] at h; exact absurd h (by simp)
  | some s' =>
    rw [hdec] at h
    have hs : s' = s ∧ (readNullTerminatedBytes bs).2 = r := by
      simpa using h
    obtain ⟨rfl, hr⟩ := hs
    refine ⟨by rw [← hr, hdrop], hle, fun k hk => ?_⟩
    unfold read_null_terminated_string
    rw [htake k hk, hr]
    dsimp only
    rw [hdec]

theorem metadata_facts {bs : List Byte} {m : ReplayMetadata} {r : List Byte}
    (h : ReplayMetadata.parse bs = .ok (m, r)) :
    r = bs.drop (cstrLen bs) ∧ cstrLen bs ≤ bs.length ∧
    ∀ k, cstrLen bs ≤ k →
      ReplayMetadata.parse (bs.take k) = .ok (m, r.take (k - cstrLen bs)) := by
  unfold ReplayMetadata.parse at h
  rw [bind_ok_iff] at h
  obtain ⟨⟨raw, rest⟩, hstr, h⟩ := h
  dsimp only at h
  rw [bind_ok_iff] at h
  obtain ⟨m', hm', h⟩ := h
  have hmr : m' = m ∧ rest = r := by simpa using h
  obtain ⟨rfl, rfl⟩ := hmr
  obtain ⟨h1, h2, h3⟩ := cstrstr_facts hstr
  refine ⟨h1, h2, fun k hk => ?_⟩
  unfold ReplayMetadata.parse
  rw [h3 k hk]
  simp only [ok_bind]
  rw [hm']
  rfl

theorem ts_facts {l : List Byte} {t : ReplayTimestamp} {r : List Byte}
    (h : ReplayTimestamp.parse l = .ok (t, r)) :
    l.length = r.length + 16 ∧ l.drop 16 = r ∧
    ∀ k, 16 ≤ k → ReplayTimestamp.parse (l.take k) = .ok (t, r.take (k - 16)) := by
  unfold ReplayTimestamp.parse at h
  rw [bind_ok_iff] at h; obtain ⟨⟨a1, l1⟩, h1, h⟩ := h; dsimp only at h
  rw [bind_ok_iff] at h; obtain ⟨⟨a2, l2⟩, h2, h⟩ := h; dsimp only at h
  rw [bind_ok_iff] at h; obtain ⟨⟨a3, l3⟩, h3, h⟩ := h; dsimp only at h
  rw [bind_ok_iff] at h; obtain ⟨⟨a4, l4⟩, h4, h⟩ := h; dsimp only at h
  rw [bind_ok_iff] at h; obtain ⟨⟨a5, l5⟩, h5, h⟩ := h; dsimp only at h
  rw [bind_ok_iff] at h; obtain ⟨⟨a6, l6⟩, h6, h⟩ := h; dsimp only at h
  rw [bind_ok_iff] at h; obtain ⟨⟨a7, l7⟩, h7, h⟩ := h; dsimp only at h
  rw [bind_ok_iff] at h; obtain ⟨⟨a8, l8⟩, h8, h⟩ := h; dsimp only at h
  obtain ⟨b1, b2, rfl, rfl⟩ := read_uint16_ok h1
  obtain ⟨b3, b4, rfl, rfl⟩ := read_uint16_ok h2
  obtain ⟨b5, b6, rfl, rfl⟩ := read_uint16_ok h3
  obtain ⟨b7, b8, rfl, rfl⟩ := read_uint16_ok h4
  obtain ⟨b9, b10, rfl, rfl⟩ := read_uint16_ok h5
  obtain ⟨b11, b12, rfl, rfl⟩ := read_uint16_ok h6
  obtain ⟨b13, b14, rfl, rfl⟩ := read_uint16_ok h7
  obtain ⟨b15, b16, rfl, rfl⟩ := read_uint16_ok h8
  injection h with hpair
  injection hpair with hteq hleq
  subst hteq
  subst hleq
  refine ⟨by simp only [List.length_cons], rfl, ?_⟩
  · intro k hk
    obtain ⟨k', rfl⟩ : ∃ k', k = k' + 16 := ⟨k - 16, by omega⟩
    rw [Nat.add_sub_cancel]
    rw [take_cons2 _ _ _ _ (by omega), take_cons2 _ _ _ _ (by omega),
      take_cons2 _ _ _ _ (by omega), take_cons2 _ _ _ _ (by omega),
      take_cons2 _ _ _ _ (by omega), take_cons2 _ _ _ _ (by omega),
      take_cons2 _ _ _ _ (by omega), take_cons2 _ _ _ _ (by omega)]
    simp only [show k' + 16 - 2 - 2 - 2 - 2 - 2 - 2 - 2 - 2 = k' from by omega]
    unfold ReplayTimestamp.parse
    simp only [read_uint16_cons, ok_bind]

theorem utf16str_nil : read_null_terminated_utf16_string [] = .ok ([], []) := rfl

theorem metadata_parse_nil : ReplayMetadata.parse [] = .ok ({}, []) := rfl

theorem ts_nil : ReplayTimestamp.parse [] = .error .truncatedInput := rfl

theorem ts_short {l : List Byte} (h : l.length < 16) :
    ReplayTimestamp.parse l = .error .truncatedInput := by
  rcases l with _ | ⟨a1, l⟩
  · rfl
  rcases l with _ | ⟨a2, l⟩
  · rfl
  rcases l with _ | ⟨a3, l⟩
  · rfl
  rcases l with _ | ⟨a4, l⟩
  · rfl
  rcases l with _ | ⟨a5, l⟩
  · rfl
  rcases l with _ | ⟨a6, l⟩
  · rfl
  rcases l with _ | ⟨a7, l⟩
  · rfl
  rcases l with _ | ⟨a8, l⟩
  · rfl
  rcases l with _ | ⟨a9, l⟩
  · rfl
  rcases l with _ | ⟨a10, l⟩
  · rfl
  rcases l with _ | ⟨a11, l⟩
  · rfl
  rcases l with _ | ⟨a12, l⟩
  · rfl
  rcases l with _ | ⟨a13, l⟩
  · rfl
  rcases l with _ | ⟨a14, l⟩
  · rfl
  rcases l with _ | ⟨a15, l⟩
  · rfl
  rcases l with _ | ⟨a16, l⟩
  · rfl
  simp only [List.length_cons] at h
  omega

theorem splitMax1_of_not_mem {sep : Char} {l : List Char} (h : sep ∉ l) :
    splitMax1 sep l = none := by
  induction l with
  | nil => rfl
  | cons c rest ih =>
    have hc : ¬(c = sep) := fun hcc => h (hcc ▸ List.mem_cons_self c rest)
    have hrest : sep ∉ rest := fun hm => h (List.mem_cons_of_mem c hm)
    simp only [splitMax1, if_neg hc, ih hrest, Option.map_none']

theorem parseGameType_generals {bs bs1 : List Byte}
    (h : Replay.parseGameType bs = .ok (GameType.GENERALS, bs1)) :
    utf8Decode (bs.take 6) = some ("GENREP".toList) ∧ bs1 = bs.drop 6 := by
  unfold Replay.parseGameType at h
  cases hdec : utf8Decode (bs.take 6) with
  | none => rw [hdec] at h; exact absurd h (by simp)
  | some tag =>
    rw [hdec] at h
    dsimp only at h
    by_cases htag : tag = "GENREP".toList
    · subst htag
      rw [if_pos rfl] at h
      have hb : bs.drop 6 = bs1 := by simpa using h
      exact ⟨rfl, hb.symm⟩
    · rw [if_neg htag] at h
      cases hdec2 : utf8Decode ((bs.drop 6).take 6) with
      | none => rw [hdec2] at h; exact absurd h (by simp)
      | some tag2 =>
        rw [hdec2] at h
        dsimp only at h
        by_cases h1 : tag2 = "BFMEREPL".toList
        · rw [if_pos h1] at h; exact absurd h (by simp)
        · rw [if_neg h1] at h
          by_cases h2 : tag2 = "BFME2RPL".toList
          · rw [if_pos h2] at h; exact absurd h (by simp)
          · rw [if_neg h2] at h; exact absurd h (by simp)

/-! ## Claim theorems -/

/-- C1: the claim says a stream whose initial bytes are `BFMEREPL` or
`BFME2RPL` fails with UnsupportedVariant.  In the code the second 6-byte
read can never equal those 8-character markers, so both streams fail with
UnrecognizedFormat carrying the 6-byte re-read (here `PL`); this theorem
evaluates the decoder at the two failing inputs. -/
theorem c1_bfme_markers_unrecognized :
    Replay.parse (strBytes "BFMEREPL") = .error (.unrecognizedFormat ("PL".toList)) ∧
    Replay.parse (strBytes "BFME2RPL") = .error (.unrecognizedFormat ("PL".toList)) :=
  ⟨by decide, by decide⟩

/-- C2: the claim says `M` at offset 1 yields MEDIUM and `H` yields HARD,
and that the failure carries the character at offset 1.  The code collapses
`E`, `M`, `H` all to EASY, and the raised failure carries the character at
offset 0; this theorem evaluates the code at those inputs. -/
theorem c2_difficulty_collapsed_to_easy :
    ReplaySlot.parse ("CM,1,2,3,4".toList) =
      .ok { slot_type := .COMPUTER, computer_difficulty := some .EASY,
            color := 1, faction := 2, star_position := 3, team := 4 } ∧
    ReplaySlot.readSlotDifficulty ("CE".toList) = .ok .EASY ∧
    ReplaySlot.readSlotDifficulty ("CM".toList) = .ok .EASY ∧
    ReplaySlot.readSlotDifficulty ("CH".toList) = .ok .EASY ∧
    ReplaySlot.readSlotDifficulty ("CZ".toList) = .error (.invalidSlotDifficulty 'C') :=
  ⟨by decide, by decide, by decide, by decide, by decide⟩

/-- C3 counterexample: on the claim's metadata string, no decoded record
has a first slot with user id 0xAB, color 1 and team 1 — the code puts the
first comma field (minus the marker) into the name, reads the user id from
field 1, and the colors/teams from fields 4 and 7. -/
theorem c3_counterexample :
    ¬ ∃ m : ReplayMetadata,
        ReplayMetadata.parseRaw
            ("US=1;MC=ff;MS=100;SC=5000;S=H0xAB,1,1,1,0,1,0,0:X:".toList) = .ok m ∧
        m.map_crc = 255 ∧ m.map_size = 100 ∧ m.starting_credits = 5000 ∧
        m.slots.length = 2 ∧
        ∃ s, m.slots.get? 0 = some s ∧ s.slot_type = .HUMAN ∧ s.user_id = 0xAB ∧
          s.color = 1 ∧ s.faction = 1 ∧ s.star_position = 0 ∧ s.team = 1 := by
  rintro ⟨m, hm, -, -, -, -, s, hs, -, huid, -⟩
  have hev : ReplayMetadata.parseRaw
      ("US=1;MC=ff;MS=100;SC=5000;S=H0xAB,1,1,1,0,1,0,0:X:".toList) =
      .ok { map_crc := 255, map_size := 100, starting_credits := 5000,
            slots := [ { slot_type := .HUMAN, human_name := "0xAB".toList, user_id := 1,
                         color := 0, faction := 1, star_position := 0, team := 0 },
                       { slot_type := .EMPTY } ] } := by decide
  rw [hev] at hm
  injection hm with hm
  subst hm
  have hsv : s = { slot_type := .HUMAN,
                   human_name := "0xAB".toList,
                   user_id := 1,
                   color := 0,
                   faction := 1,
                   star_position := 0,
                   team := 0 } := by
    have hsome : some ({ slot_type := .HUMAN,
                         human_name := "0xAB".toList,
                         user_id := 1,
                         color := 0,
                         faction := 1,
                         star_position := 0,
                         team := 0 } : ReplaySlot) = some s := by
      rw [← hs]; decide
    injection hsome with h'
    exact h'.symm
  subst hsv
  exact absurd huid (by decide)

/-- C3 amended: decoding the claim's metadata string succeeds with map CRC
255, map size 100, starting credits 5000, and two slots in order: a HUMAN
slot with name `0xAB`, user id 1, color 0, faction 1, star position 0,
team 0, followed by an EMPTY slot. -/
theorem c3_metadata_example :
    ReplayMetadata.parseRaw
        ("US=1;MC=ff;MS=100;SC=5000;S=H0xAB,1,1,1,0,1,0,0:X:".toList) =
      .ok { map_crc := 255, map_size := 100, starting_credits := 5000,
            slots := [ { slot_type := .HUMAN, human_name := "0xAB".toList, user_id := 1,
                         color := 0, faction := 1, star_position := 0, team := 0 },
                       { slot_type := .EMPTY } ] } := by decide

/-- C4 counterexample: the claim's token `C,E,2,3,4,0` does not decode to a
COMPUTER slot — the difficulty is read from offset 1 of the whole token,
which here is the comma, so parsing fails (with the offset-0 character in
the failure, as the code writes it). -/
theorem c4_counterexample :
    ReplaySlot.parse ("C,E,2,3,4,0".toList) = .error (.invalidSlotDifficulty 'C') := by
  decide

/-- C4 amended: the COMPUTER token carries its difficulty letter directly
after the marker: `CE,2,3,4,0` decodes to COMPUTER/EASY with color 2,
faction 3, start position 4, team 0; `X` decodes to EMPTY with no further
fields; any token starting with `Q` fails with InvalidSlotType('Q'). -/
theorem c4_slot_examples :
    ReplaySlot.parse ("CE,2,3,4,0".toList) =
      .ok { slot_type := .COMPUTER, computer_difficulty := some .EASY,
            color := 2, faction := 3, star_position := 4, team := 0 } ∧
    ReplaySlot.parse ("X".toList) = .ok { slot_type := .EMPTY } ∧
    ∀ rest : List Char, ReplaySlot.parse ('Q' :: rest) = .error (.invalidSlotType 'Q') := by
  refine ⟨by decide, by decide, fun rest => ?_⟩
  unfold ReplaySlot.parse
  rw [show ReplaySlot.readSlotType ('Q' :: rest) = .error (.invalidSlotType 'Q') from rfl,
    error_bind]

/-- C5 counterexample: for an `M` value with no leading decimal digits the
claim says parsing succeeds with prefix 0 and the whole value as path; the
code instead calls `int("")`, which raises the untyped `ValueError`. -/
theorem c5_counterexample :
    ReplayMetadata.parseRaw ("M=map.map".toList) = .error .valueError := by decide

/-- C5 amended: the `M` value `42mymap.map` splits into numeric prefix 42
and path `mymap.map`; for every `M` value with no leading decimal digits,
processing the entry raises the untyped `ValueError` (from `int("")`)
instead of succeeding with prefix 0. -/
theorem c5_mapfile_split (m : ReplayMetadata) (v : List Char)
    (hv : ∀ c ∈ v.take 1, ¬('0' ≤ c ∧ c ≤ '9')) :
    ReplayMetadata.parseRaw ("M=42mymap.map".toList) =
      .ok { mapfile_unknown_int := 42, mapfile := "mymap.map".toList } ∧
    ReplayMetadata.processEntry m ('M' :: '=' :: v) = .error .valueError := by
  refine ⟨by decide, ?_⟩
  have hsplit : splitMax1 '=' ('M' :: '=' :: v) = some (['M'], v) := by
    simp [splitMax1]
  have htw : v.takeWhile (fun c => '0' ≤ c ∧ c ≤ '9') = [] := by
    cases v with
    | nil => rfl
    | cons c rest =>
      have hc := hv c (by simp)
      simp [List.takeWhile_cons, hc]
  unfold ReplayMetadata.processEntry
  rw [hsplit]
  dsimp only
  rw [if_neg (by decide), if_pos (by decide)]
  rw [htw]
  rfl

/-- C5 witness: the amended statement applied at the concrete no-digit
value `map.map`. -/
theorem c5_witness :
    ReplayMetadata.parseRaw ("M=42mymap.map".toList) =
      .ok { mapfile_unknown_int := 42, mapfile := "mymap.map".toList } ∧
    ReplayMetadata.processEntry {} ('M' :: '=' :: "map.map".toList) = .error .valueError :=
  c5_mapfile_split {} ("map.map".toList) (by decide)

/-- C7 counterexample: the claim says a parsed EMPTY slot carries no name,
user id, color, faction, start position or team, and that a zero-filled
source field is never represented as a real 0.  The parsed EMPTY slot is
exactly the record whose fields hold the real values `""` and `0`. -/
theorem c7_counterexample :
    ReplaySlot.parse ("X".toList) =
      .ok { slot_type := .EMPTY,
            human_name := [],
            user_id := 0,
            computer_difficulty := none,
            color := 0,
            faction := 0,
            star_position := 0,
            team := 0 } := by decide

/-- C7 amended: fields not meaningful for a slot variant are zero-filled
defaults, not absent: every parsed EMPTY slot is the all-default record
(name `""`, user id 0, difficulty none, color/faction/start/team 0), every
parsed COMPUTER slot has name `""` and user id 0, and only the computer
difficulty of a non-COMPUTER slot is represented as absent (`none`). -/
theorem c7_unused_fields_defaulted (raw : List Char) (s : ReplaySlot)
    (h : ReplaySlot.parse raw = .ok s) :
    (s.slot_type = .EMPTY → s = { slot_type := .EMPTY }) ∧
    (s.slot_type = .COMPUTER → s.human_name = [] ∧ s.user_id = 0) ∧
    (s.slot_type ≠ .COMPUTER → s.computer_difficulty = none) := by
  unfold ReplaySlot.parse at h
  rw [bind_ok_iff] at h
  obtain ⟨st, hst, h⟩ := h
  dsimp only at h
  cases st with
  | EMPTY =>
    obtain rfl : ({ slot_type := .EMPTY } : ReplaySlot) = s := by simpa using h
    exact ⟨fun _ => rfl, fun hc => absurd hc (by simp), fun _ => rfl⟩
  | HUMAN =>
    rw [bind_ok_iff] at h; obtain ⟨d0, _, h⟩ := h; try dsimp only at h
    rw [bind_ok_iff] at h; obtain ⟨d1, _, h⟩ := h; try dsimp only at h
    rw [bind_ok_iff] at h; obtain ⟨uid, _, h⟩ := h; try dsimp only at h
    rw [bind_ok_iff] at h; obtain ⟨d4, _, h⟩ := h; try dsimp only at h
    rw [bind_ok_iff] at h; obtain ⟨col, _, h⟩ := h; try dsimp only at h
    rw [bind_ok_iff] at h; obtain ⟨d5, _, h⟩ := h; try dsimp only at h
    rw [bind_ok_iff] at h; obtain ⟨fac, _, h⟩ := h; try dsimp only at h
    rw [bind_ok_iff] at h; obtain ⟨d6, _, h⟩ := h; try dsimp only at h
    rw [bind_ok_iff] at h; obtain ⟨sp, _, h⟩ := h; try dsimp only at h
    rw [bind_ok_iff] at h; obtain ⟨d7, _, h⟩ := h; try dsimp only at h
    rw [bind_ok_iff] at h; obtain ⟨tm, _, h⟩ := h; try dsimp only at h
    obtain rfl := Except.ok.inj h
    exact ⟨fun he => absurd he (by simp), fun hc => absurd hc (by simp), fun _ => rfl⟩
  | COMPUTER =>
    rw [bind_ok_iff] at h; obtain ⟨cd, _, h⟩ := h; try dsimp only at h
    rw [bind_ok_iff] at h; obtain ⟨d1, _, h⟩ := h; try dsimp only at h
    rw [bind_ok_iff] at h; obtain ⟨col, _, h⟩ := h; try dsimp only at h
    rw [bind_ok_iff] at h; obtain ⟨d2, _, h⟩ := h; try dsimp only at h
    rw [bind_ok_iff] at h; obtain ⟨fac, _, h⟩ := h; try dsimp only at h
    rw [bind_ok_iff] at h; obtain ⟨d3, _, h⟩ := h; try dsimp only at h
    rw [bind_ok_iff] at h; obtain ⟨sp, _, h⟩ := h; try dsimp only at h
    rw [bind_ok_iff] at h; obtain ⟨d4, _, h⟩ := h; try dsimp only at h
    rw [bind_ok_iff] at h; obtain ⟨tm, _, h⟩ := h; try dsimp only at h
    obtain rfl := Except.ok.inj h
    exact ⟨fun he => absurd he (by simp), fun _ => ⟨rfl, rfl⟩, fun hc => absurd rfl hc⟩

/-- C7 witness: the amended statement applied to the parsed EMPTY token. -/
theorem c7_witness :
    (({ slot_type := .EMPTY } : ReplaySlot).slot_type = .EMPTY →
      ({ slot_type := .EMPTY } : ReplaySlot) = { slot_type := .EMPTY }) ∧
    (({ slot_type := .EMPTY } : ReplaySlot).slot_type = .COMPUTER →
      ({ slot_type := .EMPTY } : ReplaySlot).human_name = [] ∧
      ({ slot_type := .EMPTY } : ReplaySlot).user_id = 0) ∧
    (({ slot_type := .EMPTY } : ReplaySlot).slot_type ≠ .COMPUTER →
      ({ slot_type := .EMPTY } : ReplaySlot).computer_difficulty = none) :=
  c7_unused_fields_defaulted ("X".toList) { slot_type := .EMPTY } (by decide)

/-- C8: decoding is a pure function of the byte stream — two successful
decodes of the same stream agree on every field of the record and on the
unconsumed remainder. -/
theorem c8_decode_deterministic (bs : List Byte) (r1 r2 : Replay) (rem1 rem2 : List Byte)
    (h1 : Replay.parse bs = .ok (r1, rem1)) (h2 : Replay.parse bs = .ok (r2, rem2)) :
    r1.game_type = r2.game_type ∧ r1.start_date = r2.start_date ∧
    r1.end_date = r2.end_date ∧ r1.num_timecodes = r2.num_timecodes ∧
    r1.filename = r2.filename ∧ r1.timestamp = r2.timestamp ∧
    r1.version = r2.version ∧ r1.build_date = r2.build_date ∧
    r1.version_minor = r2.version_minor ∧ r1.version_major = r2.version_major ∧
    r1.unknown_hash = r2.unknown_hash ∧ r1.metadata = r2.metadata ∧
    r1.unknown1 = r2.unknown1 ∧ r1.unknown2 = r2.unknown2 ∧
    r1.unknown3 = r2.unknown3 ∧ r1.unknown4 = r2.unknown4 ∧
    r1.game_speed = r2.game_speed ∧ rem1 = rem2 := by
  have h := h1.symm.trans h2
  injection h with hp
  injection hp with hr hrem
  subst hr
  subst hrem
  exact ⟨rfl, rfl, rfl, rfl, rfl, rfl, rfl, rfl, rfl, rfl, rfl, rfl, rfl, rfl, rfl, rfl,
    rfl, rfl⟩

/-- C8 witness: the determinism statement applied to two decodes of the
concrete stream `demoStream`. -/
theorem c8_witness :
    demoReplay.game_type = demoReplay.game_type ∧
    demoReplay.start_date = demoReplay.start_date ∧
    demoReplay.end_date = demoReplay.end_date ∧
    demoReplay.num_timecodes = demoReplay.num_timecodes ∧
    demoReplay.filename = demoReplay.filename ∧
    demoReplay.timestamp = demoReplay.timestamp ∧
    demoReplay.version = demoReplay.version ∧
    demoReplay.build_date = demoReplay.build_date ∧
    demoReplay.version_minor = demoReplay.version_minor ∧
    demoReplay.version_major = demoReplay.version_major ∧
    demoReplay.unknown_hash = demoReplay.unknown_hash ∧
    demoReplay.metadata = demoReplay.metadata ∧
    demoReplay.unknown1 = demoReplay.unknown1 ∧
    demoReplay.unknown2 = demoReplay.unknown2 ∧
    demoReplay.unknown3 = demoReplay.unknown3 ∧
    demoReplay.unknown4 = demoReplay.unknown4 ∧
    demoReplay.game_speed = demoReplay.game_speed ∧
    ([] : List Byte) = [] :=
  c8_decode_deterministic demoStream demoReplay demoReplay [] [] (by decide) (by decide)

/-- C9 counterexample: the claim quantifies over every metadata block that
contains a non-empty `=`-free segment; in `A=0;X` such a segment (`X`) is
present, yet parsing fails earlier with the typed UnrecognizedMetadataKey
for `A`, not with the untyped `ValueError`. -/
theorem c9_counterexample :
    ReplayMetadata.parseRaw ("A=0;X".toList) = .error (.unrecognizedMetadataKey ['A']) := by
  decide

/-- C9 amended: if the non-empty segments of the block split as some prefix
that processes successfully, followed by a segment with no `=` character,
then parsing raises the untyped `ValueError` from the key/value unpacking,
not a typed parser failure. -/
theorem c9_missing_eq_value_error (raw : List Char) (pre post : List (List Char))
    (e : List Char) (m : ReplayMetadata)
    (hsplit : (pySplit ';' raw).filter (fun p => !p.isEmpty) = pre ++ e :: post)
    (hnoeq : '=' ∉ e)
    (hpre : pre.foldlM ReplayMetadata.processEntry {} = .ok m) :
    ReplayMetadata.parseRaw raw = .error .valueError := by
  unfold ReplayMetadata.parseRaw
  rw [hsplit, List.foldlM_append, hpre]
  simp only [ok_bind, List.foldlM_cons]
  rw [show ReplayMetadata.processEntry m e = .error .valueError from by
    unfold ReplayMetadata.processEntry
    rw [splitMax1_of_not_mem hnoeq]]
  rw [error_bind]

/-- C9 witness: the amended statement applied to the concrete block
`MC=ff;X`, whose first entry parses and whose second entry has no `=`. -/
theorem c9_witness : ReplayMetadata.parseRaw ("MC=ff;X".toList) = .error .valueError :=
  c9_missing_eq_value_error ("MC=ff;X".toList) [ "MC=ff".toList ] [] ("X".toList)
    { map_crc := 255 } (by decide) (by decide) (by decide)

/-- C10: the slot-insertion loop of `ReplayDatabase.add_replay` emits
exactly one row per HUMAN or COMPUTER slot, in slot-sequence order, and no
row for any EMPTY slot. -/
theorem c10_slot_rows (rid : Int) (slots : List ReplaySlot) :
    ReplayDatabase.slotInserts rid slots =
      (slots.filter (fun s =>
        s.slot_type = ReplaySlotType.HUMAN ∨ s.slot_type = ReplaySlotType.COMPUTER)).map
        (mkSlotRow rid) := by
  induction slots with
  | nil => rfl
  | cons s rest ih =>
    cases hst : s.slot_type <;>
      simp [ReplayDatabase.slotInserts, slotTypeValue, hst, ih, List.filter_cons]

/-- C6: for every byte stream that decodes successfully, truncating the
stream strictly before the end of a required fixed-size field of the
GENERALS header layout — one of the 2- and 4-byte integers, the 12-byte
reserved region or the 8-byte hash, i.e. any offset past the 6-byte variant
tag and outside the variable-length string regions — makes decoding fail
with TruncatedInput, and no Replay record is returned. -/
theorem c6_truncated_fixed_field (bs : List Byte) (r : Replay) (rem : List Byte) (k : Nat)
    (hok : Replay.parse bs = .ok (r, rem))
    (hcons : k < bs.length - rem.length)
    (hfix : isFixedFieldOffset bs k) :
    Replay.parse (bs.take k) = .error .truncatedInput := by
  obtain ⟨hk6, hreg⟩ := hfix
  unfold Replay.parse at hok
  rw [bind_ok_iff] at hok
  obtain ⟨⟨gt, bs1⟩, hgt, hok⟩ := hok
  dsimp only at hok
  by_cases hg : gt = GameType.GENERALS
  case neg =>
    rw [if_pos hg] at hok
    exact absurd hok (by simp)
  case pos =>
  subst hg
  rw [if_neg (fun hne => hne rfl)] at hok
  rw [bind_ok_iff] at hok; obtain ⟨⟨sd, bs2⟩, hsd, hok⟩ := hok; dsimp only at hok
  rw [bind_ok_iff] at hok; obtain ⟨⟨ed, bs3⟩, hed, hok⟩ := hok; dsimp only at hok
  rw [bind_ok_iff] at hok; obtain ⟨⟨ntc, bs4⟩, hntc, hok⟩ := hok; dsimp only at hok
  rw [bind_ok_iff] at hok; obtain ⟨⟨fn, bs6⟩, hfn, hok⟩ := hok; dsimp only at hok
  rw [bind_ok_iff] at hok; obtain ⟨⟨ts, bs7⟩, hts, hok⟩ := hok; dsimp only at hok
  rw [bind_ok_iff] at hok; obtain ⟨⟨ver, bs8⟩, hver, hok⟩ := hok; dsimp only at hok
  rw [bind_ok_iff] at hok; obtain ⟨⟨bd, bs9⟩, hbd, hok⟩ := hok; dsimp only at hok
  rw [bind_ok_iff] at hok; obtain ⟨⟨vmin, bs10⟩, hvmin, hok⟩ := hok; dsimp only at hok
  rw [bind_ok_iff] at hok; obtain ⟨⟨vmaj, bs11⟩, hvmaj, hok⟩ := hok; dsimp only at hok
  rw [bind_ok_iff] at hok; obtain ⟨⟨md, bs13⟩, hmd, hok⟩ := hok; dsimp only at hok
  rw [bind_ok_iff] at hok; obtain ⟨⟨u1, bs14⟩, hu1, hok⟩ := hok; dsimp only at hok
  rw [bind_ok_iff] at hok; obtain ⟨⟨u2, bs15⟩, hu2, hok⟩ := hok; dsimp only at hok
  rw [bind_ok_iff] at hok; obtain ⟨⟨u3, bs16⟩, hu3, hok⟩ := hok; dsimp only at hok
  rw [bind_ok_iff] at hok; obtain ⟨⟨u4, bs17⟩, hu4, hok⟩ := hok; dsimp only at hok
  rw [bind_ok_iff] at hok; obtain ⟨⟨gs, bs18⟩, hgs, hok⟩ := hok; dsimp only at hok
  have hrem : bs18 = rem := by
    injection hok with hp
    injection hp with hp1 hp2
  subst hrem
  -- decompose the successful reads
  obtain ⟨hdec, hbs1⟩ := parseGameType_generals hgt
  obtain ⟨c1, c2, c3, c4, hsh1, -⟩ := read_uint32_ok hsd
  obtain ⟨c5, c6, c7, c8, hsh2, -⟩ := read_uint32_ok hed
  obtain ⟨c9, c10, hsh3, -⟩ := read_uint16_ok hntc
  obtain ⟨e1, e2, hsh4, -⟩ := read_uint16_ok hvmin
  obtain ⟨e3, e4, hsh5, -⟩ := read_uint16_ok hvmaj
  obtain ⟨f1, f2, hsh6, -⟩ := read_uint16_ok hu1
  obtain ⟨g1, g2, g3, g4, hsh7, -⟩ := read_uint32_ok hu2
  obtain ⟨g5, g6, g7, g8, hsh8, -⟩ := read_uint32_ok hu3
  obtain ⟨g9, g10, g11, g12, hsh9, -⟩ := read_uint32_ok hu4
  obtain ⟨g13, g14, g15, g16, hsh10, -⟩ := read_uint32_ok hgs
  obtain ⟨hfn_drop, hfn_le, hfn_take⟩ := utf16str_facts hfn
  obtain ⟨hts_len, hts_drop, hts_take⟩ := ts_facts hts
  obtain ⟨hver_drop, hver_le, hver_take⟩ := utf16str_facts hver
  obtain ⟨hbd_drop, hbd_le, hbd_take⟩ := utf16str_facts hbd
  obtain ⟨hmd_drop, hmd_le, hmd_take⟩ := metadata_facts hmd
  -- express the suffix at each fixed offset
  have hb2 : bs.drop 10 = bs2 := by
    rw [show (10 : Nat) = 6 + 4 from rfl, ← List.drop_drop, ← hbs1, hsh1]
    rfl
  have hb3 : bs.drop 14 = bs3 := by
    rw [show (14 : Nat) = 10 + 4 from rfl, ← List.drop_drop, hb2, hsh2]
    rfl
  have hb4 : bs.drop 16 = bs4 := by
    rw [show (16 : Nat) = 14 + 2 from rfl, ← List.drop_drop, hb3, hsh3]
    rfl
  have hb5 : bs.drop 28 = bs4.drop 12 := by
    rw [show (28 : Nat) = 16 + 12 from rfl, ← List.drop_drop, hb4]
  have hb6 : bs.drop (28 + cstr16Len (bs4.drop 12)) = bs6 := by
    rw [← List.drop_drop, hb5, ← hfn_drop]
  have hb7 : bs.drop (28 + cstr16Len (bs4.drop 12) + 16) = bs7 := by
    rw [← List.drop_drop, hb6]
    exact hts_drop
  have hb8 : bs.drop (28 + cstr16Len (bs4.drop 12) + 16 + cstr16Len bs7) = bs8 := by
    rw [← List.drop_drop, hb7, ← hver_drop]
  have hb9 : bs.drop (28 + cstr16Len (bs4.drop 12) + 16 + cstr16Len bs7 + cstr16Len bs8)
      = bs9 := by
    rw [← List.drop_drop, hb8, ← hbd_drop]
  have hb11 : bs.drop (28 + cstr16Len (bs4.drop 12) + 16 + cstr16Len bs7 + cstr16Len bs8 + 4)
      = bs11 := by
    rw [← List.drop_drop, hb9, hsh4, hsh5]
    rfl
  have hb12 : bs.drop (28 + cstr16Len (bs4.drop 12) + 16 + cstr16Len bs7 + cstr16Len bs8 + 12)
      = bs11.drop 8 := by
    rw [show 28 + cstr16Len (bs4.drop 12) + 16 + cstr16Len bs7 + cstr16Len bs8 + 12 =
        28 + cstr16Len (bs4.drop 12) + 16 + cstr16Len bs7 + cstr16Len bs8 + 4 + 8 from by
          omega,
      ← List.drop_drop, hb11]
  -- the four variable-region exclusions, localized
  have A1 := hreg (28, 28 + cstr16Len (bs.drop 28)) (by simp [variableRegions])
  have A2 := hreg (28 + cstr16Len (bs.drop 28) + 16,
    28 + cstr16Len (bs.drop 28) + 16 + cstr16Len (bs.drop (28 + cstr16Len (bs.drop 28) + 16)))
    (by simp [variableRegions])
  have A3 := hreg (28 + cstr16Len (bs.drop 28) + 16 + cstr16Len (bs.drop (28 + cstr16Len (bs.drop 28) + 16)),
    28 + cstr16Len (bs.drop 28) + 16 + cstr16Len (bs.drop (28 + cstr16Len (bs.drop 28) + 16)) +
      cstr16Len (bs.drop (28 + cstr16Len (bs.drop 28) + 16 + cstr16Len (bs.drop (28 + cstr16Len (bs.drop 28) + 16)))))
    (by simp [variableRegions])
  have A4 := hreg (28 + cstr16Len (bs.drop 28) + 16 + cstr16Len (bs.drop (28 + cstr16Len (bs.drop 28) + 16)) +
      cstr16Len (bs.drop (28 + cstr16Len (bs.drop 28) + 16 + cstr16Len (bs.drop (28 + cstr16Len (bs.drop 28) + 16)))) + 12,
    28 + cstr16Len (bs.drop 28) + 16 + cstr16Len (bs.drop (28 + cstr16Len (bs.drop 28) + 16)) +
      cstr16Len (bs.drop (28 + cstr16Len (bs.drop 28) + 16 + cstr16Len (bs.drop (28 + cstr16Len (bs.drop 28) + 16)))) + 12 +
      cstrLen (bs.drop (28 + cstr16Len (bs.drop 28) + 16 + cstr16Len (bs.drop (28 + cstr16Len (bs.drop 28) + 16)) +
        cstr16Len (bs.drop (28 + cstr16Len (bs.drop 28) + 16 + cstr16Len (bs.drop (28 + cstr16Len (bs.drop 28) + 16)))) + 12)))
    (by simp [variableRegions])
  dsimp only at A1 A2 A3 A4
  rw [hb5] at A1 A2 A3 A4
  rw [hb7] at A2 A3 A4
  rw [hb8] at A3 A4
  rw [hb12] at A4
  clear hreg
  set X := cstr16Len (bs4.drop 12) with hX
  set Y := cstr16Len bs7 with hY
  set Z := cstr16Len bs8 with hZ
  set W := cstrLen (bs11.drop 8) with hW
  -- length ledger
  have L0 : bs1.length = bs.length - 6 := by rw [hbs1, List.length_drop]
  have L1 : bs1.length = bs2.length + 4 := by rw [hsh1]; simp only [List.length_cons]
  have L2 : bs2.length = bs3.length + 4 := by rw [hsh2]; simp only [List.length_cons]
  have L3 : bs3.length = bs4.length + 2 := by rw [hsh3]; simp only [List.length_cons]
  have L4 : (bs4.drop 12).length = bs4.length - 12 := by rw [List.length_drop]
  have L5 : bs6.length = (bs4.drop 12).length - X := by rw [hfn_drop, List.length_drop]
  have L6 : bs6.length = bs7.length + 16 := hts_len
  have L7 : bs8.length = bs7.length - Y := by rw [hver_drop, List.length_drop]
  have L8 : bs9.length = bs8.length - Z := by rw [hbd_drop, List.length_drop]
  have L9 : bs9.length = bs10.length + 2 := by rw [hsh4]; simp only [List.length_cons]
  have L10 : bs10.length = bs11.length + 2 := by rw [hsh5]; simp only [List.length_cons]
  have L11 : (bs11.drop 8).length = bs11.length - 8 := by rw [List.length_drop]
  have L12 : bs13.length = (bs11.drop 8).length - W := by rw [hmd_drop, List.length_drop]
  have L13 : bs13.length = bs14.length + 2 := by rw [hsh6]; simp only [List.length_cons]
  have L14 : bs14.length = bs15.length + 4 := by rw [hsh7]; simp only [List.length_cons]
  have L15 : bs15.length = bs16.length + 4 := by rw [hsh8]; simp only [List.length_cons]
  have L16 : bs16.length = bs17.length + 4 := by rw [hsh9]; simp only [List.length_cons]
  have L17 : bs17.length = bs18.length + 4 := by
    rw [hsh10]; simp only [List.length_cons]
  -- the truncated run
  have htag : Replay.parseGameType (bs.take k) = .ok (GameType.GENERALS, bs1.take (k - 6)) := by
    unfold Replay.parseGameType
    rw [List.take_take, Nat.min_eq_left hk6, hdec]
    dsimp only
    rw [if_pos rfl, take_drop_comm, ← hbs1]
  unfold Replay.parse
  rw [htag]
  simp only [ok_bind]
  try dsimp only
  rw [if_neg (fun hne => hne rfl)]
  rcases Nat.lt_or_ge k 10 with hR | hk10
  · rw [read_uint32_short (by rw [List.length_take]; omega), error_bind]
  rw [hsh1, take_cons4 c1 c2 c3 c4 bs2 (k - 6) (by omega), read_uint32_cons]
  simp only [ok_bind]; try dsimp only
  rcases Nat.lt_or_ge k 14 with hR | hk14
  · rw [read_uint32_short (by rw [List.length_take]; omega), error_bind]
  rw [hsh2, take_cons4 c5 c6 c7 c8 bs3 (k - 6 - 4) (by omega), read_uint32_cons]
  simp only [ok_bind]; try dsimp only
  rcases Nat.lt_or_ge k 16 with hR | hk16
  · rw [read_uint16_short (by rw [List.length_take]; omega), error_bind]
  rw [hsh3, take_cons2 c9 c10 bs4 (k - 6 - 4 - 4) (by omega), read_uint16_cons]
  simp only [ok_bind]; try dsimp only
  rcases Nat.lt_or_ge k 28 with hR | hk28
  · rw [take_drop_comm, show k - 6 - 4 - 4 - 2 - 12 = 0 from by omega, List.take_zero,
      utf16str_nil]
    simp only [ok_bind]; try dsimp only
    rw [ts_nil, error_bind]
  rw [take_drop_comm, show k - 6 - 4 - 4 - 2 - 12 = k - 28 from by omega]
  have hkfn : 28 + X ≤ k := by
    rcases Nat.lt_or_ge k (28 + X) with hlt | hge
    · exact absurd ⟨hk28, hlt⟩ A1
    · exact hge
  rw [hfn_take (k - 28) (by omega)]
  simp only [ok_bind]; try dsimp only
  rcases Nat.lt_or_ge k (28 + X + 16) with hR | hk44
  · rw [ts_short (by rw [List.length_take]; omega), error_bind]
  rw [hts_take (k - 28 - X) (by omega)]
  simp only [ok_bind]; try dsimp only
  have hkver : 28 + X + 16 + Y ≤ k := by
    rcases Nat.lt_or_ge k (28 + X + 16 + Y) with hlt | hge
    · exact absurd ⟨by omega, hlt⟩ A2
    · exact hge
  rw [hver_take (k - 28 - X - 16) (by omega)]
  simp only [ok_bind]; try dsimp only
  have hkbd : 28 + X + 16 + Y + Z ≤ k := by
    rcases Nat.lt_or_ge k (28 + X + 16 + Y + Z) with hlt | hge
    · exact absurd ⟨by omega, hlt⟩ A3
    · exact hge
  rw [hbd_take (k - 28 - X - 16 - Y) (by omega)]
  simp only [ok_bind]; try dsimp only
  rcases Nat.lt_or_ge k (28 + X + 16 + Y + Z + 2) with hR | hkv1
  · rw [read_uint16_short (by rw [List.length_take]; omega), error_bind]
  rw [hsh4, take_cons2 e1 e2 bs10 (k - 28 - X - 16 - Y - Z) (by omega), read_uint16_cons]
  simp only [ok_bind]; try dsimp only
  rcases Nat.lt_or_ge k (28 + X + 16 + Y + Z + 4) with hR | hkv2
  · rw [read_uint16_short (by rw [List.length_take]; omega), error_bind]
  rw [hsh5, take_cons2 e3 e4 bs11 (k - 28 - X - 16 - Y - Z - 2) (by omega), read_uint16_cons]
  simp only [ok_bind]; try dsimp only
  rcases Nat.lt_or_ge k (28 + X + 16 + Y + Z + 12) with hR | hkhash
  · rw [take_drop_comm, show k - 28 - X - 16 - Y - Z - 2 - 2 - 8 = 0 from by omega,
      List.take_zero, metadata_parse_nil]
    simp only [ok_bind]; try dsimp only
    rw [read_uint16_short (by simp), error_bind]
  rw [take_drop_comm]
  have hkmd : 28 + X + 16 + Y + Z + 12 + W ≤ k := by
    rcases Nat.lt_or_ge k (28 + X + 16 + Y + Z + 12 + W) with hlt | hge
    · exact absurd ⟨by omega, hlt⟩ A4
    · exact hge
  rw [hmd_take (k - 28 - X - 16 - Y - Z - 2 - 2 - 8) (by omega)]
  simp only [ok_bind]; try dsimp only
  rcases Nat.lt_or_ge k (28 + X + 16 + Y + Z + 12 + W + 2) with hR | hku1
  · rw [read_uint16_short (by rw [List.length_take]; omega), error_bind]
  rw [hsh6, take_cons2 f1 f2 bs14 (k - 28 - X - 16 - Y - Z - 2 - 2 - 8 - W) (by omega),
    read_uint16_cons]
  simp only [ok_bind]; try dsimp only
  rcases Nat.lt_or_ge k (28 + X + 16 + Y + Z + 12 + W + 6) with hR | hku2
  · rw [read_uint32_short (by rw [List.length_take]; omega), error_bind]
  rw [hsh7, take_cons4 g1 g2 g3 g4 bs15 (k - 28 - X - 16 - Y - Z - 2 - 2 - 8 - W - 2)
    (by omega), read_uint32_cons]
  simp only [ok_bind]; try dsimp only
  rcases Nat.lt_or_ge k (28 + X + 16 + Y + Z + 12 + W + 10) with hR | hku3
  · rw [read_uint32_short (by rw [List.length_take]; omega), error_bind]
  rw [hsh8, take_cons4 g5 g6 g7 g8 bs16 (k - 28 - X - 16 - Y - Z - 2 - 2 - 8 - W - 2 - 4)
    (by omega), read_uint32_cons]
  simp only [ok_bind]; try dsimp only
  rcases Nat.lt_or_ge k (28 + X + 16 + Y + Z + 12 + W + 14) with hR | hku4
  · rw [read_uint32_short (by rw [List.length_take]; omega), error_bind]
  rw [hsh9, take_cons4 g9 g10 g11 g12 bs17 (k - 28 - X - 16 - Y - Z - 2 - 2 - 8 - W - 2 - 4 - 4)
    (by omega), read_uint32_cons]
  simp only [ok_bind]; try dsimp only
  rw [read_uint32_short (by rw [List.length_take]; omega), error_bind]

/-- C6 witness: the truncation statement applied to `demoStream` cut at
offset 7, inside the 4-byte start-time field. -/
theorem c6_witness : Replay.parse (demoStream.take 7) = .error .truncatedInput :=
  c6_truncated_fixed_field demoStream demoReplay [] 7 (by decide) (by decide) (by decide)
